import Mathlib

/-!
Shallow embedding of `gdb_mcp_server.py` (class `GDBController`): the
background reader loop, stop-notification parsing, MI result parsing, and
the facade operations, together with proofs of the specification claims.

Strings are modelled as `List Char`; the Python `re` searches used by the
code are small fixed patterns (a literal key, a character-class body, a
closing delimiter), modelled by explicit leftmost-match scanners below.
-/

abbrev Str := List Char

/-- Convert a Lean string literal to the `Str` model. -/
def strL (s : String) : Str := s.toList

/-- Test that `pre` is a prefix of `s` (models Python `str.startswith`). -/
def startsWith : Str → Str → Bool
  | [], _ => true
  | _ :: _, [] => false
  | a :: as, b :: bs => a == b && startsWith as bs

/-- Test that `pat` occurs as a contiguous substring of `s` (models Python `in`). -/
def containsSub (pat : Str) : Str → Bool
  | [] => startsWith pat []
  | c :: rest => startsWith pat (c :: rest) || containsSub pat rest

/-- Drop a literal from the front of `s`; `none` if `s` does not start with it. -/
def dropLit : Str → Str → Option Str
  | [], s => some s
  | _ :: _, [] => none
  | l :: ls, c :: cs => if c == l then dropLit ls cs else none

/-- Try to match, at the current position, the pattern
`lit` `body` `close` where `body` is a maximal run of characters satisfying
`f` (required nonempty when `ne`), returning the body.  Faithful to the
regexes in the source because in every use the class `f` excludes `close`,
so greedy matching with backtracking coincides with maximal munch. -/
def matchAt (lit : Str) (f : Char → Bool) (ne : Bool) (close : Char) (s : Str) :
    Option Str :=
  match dropLit lit s with
  | none => none
  | some rest =>
    let body := rest.takeWhile f
    if ne && body.isEmpty then none
    else
      match rest.drop body.length with
      | c :: _ => if c == close then some body else none
      | [] => none

/-- Leftmost match: try `p` at every position left to right
(models `re.search` for the fixed patterns used by the code). -/
def reSearch (p : Str → Option α) : Str → Option α
  | [] => none
  | c :: rest =>
    match p (c :: rest) with
    | some a => some a
    | none => reSearch p rest

def isHexDigit (c : Char) : Bool :=
  c.isDigit || ('a' ≤ c && c ≤ 'f') || ('A' ≤ c && c ≤ 'F')

/-- The `\w` class for the ASCII inputs of the MI protocol. -/
def isWordChar (c : Char) : Bool := c.isAlphanum || c == '_'

/-- Digits-to-number, as Python `int()` on a nonempty digit string. -/
def natOfDigits (ds : Str) : Nat :=
  ds.foldl (fun n c => n * 10 + (c.toNat - 48)) 0

def digitChar (n : Nat) : Char := Char.ofNat (48 + n)

def natToStrGo : Nat → Nat → Str → Str
  | 0, _, acc => acc
  | fuel + 1, n, acc =>
    if n < 10 then digitChar n :: acc
    else natToStrGo fuel (n / 10) (digitChar (n % 10) :: acc)

/-- Decimal rendering of a natural, as Python `str`/f-string interpolation. -/
def natToStr (n : Nat) : Str := natToStrGo (n + 1) n []

/-- Decimal rendering of an integer. -/
def intToStr : Int → Str
  | .ofNat n => natToStr n
  | .negSucc n => '-' :: natToStr (n + 1)

example : startsWith (strL "*stopped") (strL "*stopped,reason=\"x\"") = true := by
  decide

example : containsSub (strL "bc") (strL "abcd") = true := by decide

example :
    reSearch (matchAt (strL "bkptno=\"") Char.isDigit true '"')
      (strL "*stopped,reason=\"breakpoint-hit\",bkptno=\"12\",addr=\"0x1\"") =
      some (strL "12") := by decide

example : natToStr 1205 = strL "1205" := by decide

/-- One step of `re.finditer` for the pattern `(\w+)="([^"]*)"` at the
current position: a nonempty run of word characters, then `="`, then a run
of non-quote characters, then `"`.  Returns the captures and the remainder
of the line after the match. -/
def matchKVAt (s : Str) : Option ((Str × Str) × Str) :=
  let key := s.takeWhile isWordChar
  if key.isEmpty then none
  else
    match s.drop key.length with
    | '=' :: '"' :: rest =>
      let v := rest.takeWhile (fun c => !(c == '"'))
      match rest.drop v.length with
      | '"' :: rem => some ((key, v), rem)
      | _ => none
    | _ => none

/-- Scan worker with explicit fuel; a successful match always consumes at
least one character, so `s.length` fuel always suffices. -/
def findKVsGo : Nat → Str → List (Str × Str)
  | 0, _ => []
  | fuel + 1, s =>
    match s with
    | [] => []
    | c :: rest =>
      match matchKVAt (c :: rest) with
      | some (kv, rem) => kv :: findKVsGo fuel rem
      | none => findKVsGo fuel rest

/-- All matches of `(\w+)="([^"]*)"` in line-scan order, non-overlapping,
as `re.finditer` yields them. -/
def findKVs (s : Str) : List (Str × Str) := findKVsGo s.length s

/-- The mapping built by the `^done` branch (a Python dict keyed by
extraction order; later assignments to the same key overwrite). -/
abbrev Dict := List (Str × Str)

def lookupD (d : Dict) (k : Str) : Option Str :=
  match d with
  | [] => none
  | (k', v) :: rest => if k' = k then some v else lookupD rest k

def insertD (d : Dict) (k : Str) (v : Str) : Dict :=
  match d with
  | [] => [(k, v)]
  | (k', v') :: rest => if k' = k then (k, v) :: rest else (k', v') :: insertD rest k v

def buildDict (kvs : List (Str × Str)) : Dict :=
  kvs.foldl (fun d kv => insertD d kv.1 kv.2) []

theorem lookupD_insertD_same (d : Dict) (k v : Str) :
    lookupD (insertD d k v) k = some v := by
  induction d with
  | nil => simp [insertD, lookupD]
  | cons p rest ih =>
    obtain ⟨k', v'⟩ := p
    by_cases h : k' = k
    · simp [insertD, lookupD, h]
    · simp [insertD, lookupD, h, ih]

theorem lookupD_insertD_ne (d : Dict) (k v k' : Str) (hne : k ≠ k') :
    lookupD (insertD d k v) k' = lookupD d k' := by
  induction d with
  | nil => simp [insertD, lookupD, hne]
  | cons p rest ih =>
    obtain ⟨k₀, v₀⟩ := p
    by_cases h : k₀ = k
    · subst h
      simp [insertD, lookupD, hne]
    · simp [insertD, lookupD, h, ih]

example : findKVs (strL "a=\"1\",b=\"2\",a=\"3\"") =
    [(strL "a", strL "1"), (strL "b", strL "2"), (strL "a", strL "3")] := by decide

example : lookupD (buildDict (findKVs (strL "a=\"1\",b=\"2\",a=\"3\""))) (strL "a") =
    some (strL "3") := by decide

/-- A parsed breakpoint-hit record (`_parse_stopped`).  The Python dict also
carries a wall-clock `timestamp`; wall-clock time is outside the model.
Fields the regexes fail to extract are absent from the Python dict, modelled
here by `none`. -/
structure Hit where
  raw : Str
  bkptno : Option Nat
  addr : Option Str
  frame : Option Str
deriving Repr, DecidableEq

/-- Models `re.search(r'bkptno="(\d+)"', line)` followed by `int(...)`. -/
def extractBkptno (line : Str) : Option Nat :=
  (reSearch (matchAt (strL "bkptno=\"") Char.isDigit true '"') line).map natOfDigits

/-- Models `re.search(r'addr="(0x[0-9a-fA-F]+)"', line)`; the capture includes the
literal `0x`. -/
def extractAddr (line : Str) : Option Str :=
  (reSearch (matchAt (strL "addr=\"0x") isHexDigit true '"') line).map
    (fun b => strL "0x" ++ b)

/-- Models `re.search(r'frame=\x7b([^\x7d]+)\x7d', line)`: raw substring between the
first brace pair after `frame=`. -/
def extractFrame (line : Str) : Option Str :=
  reSearch (matchAt (strL "frame=\x7b") (fun c => !(c == '\x7d')) true '\x7d') line

/-- Embeds `GDBController._parse_stopped`: a hit record is appended only when the
line contains `reason="breakpoint-hit"`; each field is stored only when its
regex matched. -/
def parseStopped (hits : List Hit) (line : Str) : List Hit :=
  if containsSub (strL "reason=\"breakpoint-hit\"") line then
    hits ++ [{ raw := line, bkptno := extractBkptno line, addr := extractAddr line,
               frame := extractFrame line }]
  else hits

/-- The state touched by the background reader: the output queue (Response
Channel) and the pending-hit list (Hit Log). -/
structure RState where
  queue : List Str
  hits : List Hit
deriving Repr, DecidableEq

/-- One iteration of `GDBController._reader_loop` on a decoded, stripped
line: the line is enqueued unconditionally, and lines beginning with
`*stopped` are additionally handed to `_parse_stopped`. -/
def readerStep (st : RState) (line : Str) : RState :=
  let st1 : RState := { st with queue := st.queue ++ [line] }
  if startsWith (strL "*stopped") line then
    { st1 with hits := parseStopped st1.hits line }
  else st1

/-- The reader loop over a whole sequence of arriving lines. -/
def readerRun : RState → List Str → RState
  | st, [] => st
  | st, l :: rest => readerRun (readerStep st l) rest

/-- Outcome of `GDBController._parse_result`: the Python triple
`(success, message, data)`. -/
structure MIResult where
  success : Bool
  message : Str
  data : Dict
deriving Repr, DecidableEq

/-- Models `re.search(r'msg="([^"]*)"', line)`. -/
def extractMsg (line : Str) : Option Str :=
  reSearch (matchAt (strL "msg=\"") (fun c => !(c == '"')) false '"') line

/-- Embeds `GDBController._parse_result`. -/
def parseResult (lines : List Str) : MIResult :=
  match lines.find? (fun l => startsWith (strL "^") l) with
  | none => ⟨false, strL "No result received", []⟩
  | some rl =>
    if startsWith (strL "^done") rl then
      ⟨true, strL "OK", buildDict (findKVs rl)⟩
    else if startsWith (strL "^error") rl then
      match extractMsg rl with
      | some m => ⟨false, m, []⟩
      | none => ⟨false, strL "Unknown error", []⟩
    else if startsWith (strL "^running") rl then
      ⟨true, strL "Running", []⟩
    else
      ⟨false, strL "Unknown result: " ++ rl, []⟩

example :
    parseStopped []
      (strL "*stopped,reason=\"breakpoint-hit\",bkptno=\"2\",addr=\"0x401000\",frame=\x7baddr=\"0x401000\",func=\"main\"\x7d") =
    [⟨strL "*stopped,reason=\"breakpoint-hit\",bkptno=\"2\",addr=\"0x401000\",frame=\x7baddr=\"0x401000\",func=\"main\"\x7d",
      some 2, some (strL "0x401000"), some (strL "addr=\"0x401000\",func=\"main\"")⟩] := by
  decide

example : parseStopped [] (strL "*stopped,reason=\"exited-normally\"") = [] := by decide

example : parseResult [strL "~hello", strL "^done,value=\"42\""] =
    ⟨true, strL "OK", [(strL "value", strL "42")]⟩ := by decide

example : parseResult [strL "~hello"] = ⟨false, strL "No result received", []⟩ := by
  decide

example : parseResult [strL "^error,msg=\"No such process\""] =
    ⟨false, strL "No such process", []⟩ := by decide

example : parseResult [strL "^running"] = ⟨true, strL "Running", []⟩ := by decide

example : parseResult [strL "^connected"] =
    ⟨false, strL "Unknown result: ^connected", []⟩ := by decide

/-- A breakpoint-table entry: `\x7b"address": ..., "hardware": ..., "number": ...\x7d`. -/
structure BpInfo where
  address : Str
  hardware : Bool
  number : Nat
deriving Repr, DecidableEq

/-- Models `self.breakpoints[n] = info` (Python dict assignment: overwrite in place
or append in insertion order). -/
def insertBp : List (Nat × BpInfo) → Nat → BpInfo → List (Nat × BpInfo)
  | [], n, info => [(n, info)]
  | (n', i') :: rest, n, info =>
    if n' = n then (n, info) :: rest else (n', i') :: insertBp rest n info

def lookupBp : List (Nat × BpInfo) → Nat → Option BpInfo
  | [], _ => none
  | (n', i') :: rest, n => if n' = n then some i' else lookupBp rest n

/-- Models `self.breakpoints.pop(n, None)`. -/
def removeBp : List (Nat × BpInfo) → Nat → List (Nat × BpInfo)
  | [], _ => []
  | (n', i') :: rest, n => if n' = n then rest else (n', i') :: removeBp rest n

/-- The session state of `GDBController` (the output queue lives with the
reader model `RState`; the wall clock and thread handle are outside the
model). -/
structure GDBState where
  process : Option Nat
  running : Bool
  breakpoints : List (Nat × BpInfo)
  bpHits : List Hit
  attachedPid : Option Nat
deriving Repr, DecidableEq

/-- The dictionaries the facade operations return, one constructor per
result shape. -/
inductive Resp where
  | errorR (msg : Str)
  | startedR (pid : Nat)
  | stoppedR
  | attachedR (pid : Nat)
  | detachedR
  | bpSetR (number : Option Nat) (address : Str)
  | bpDeletedR (number : Nat)
  | runningR
  | interruptedR
  | registerR (register : Str) (value : Str)
  | memoryR (address : Str) (size : Int) (contents : Str)
  | hitsR (hits : List Hit) (count : Nat)
  | statusR (running : Bool) (attachedPid : Option Nat) (bps : List BpInfo)
      (pendingHits : Nat)
  | rawR (lines : List Str)
deriving Repr, DecidableEq

/-- Is the facade result the `\x7b"error": ...\x7d` shape? -/
def Resp.isError : Resp → Bool
  | .errorR _ => true
  | _ => false

instance {ε α : Type} [DecidableEq ε] [DecidableEq α] : DecidableEq (Except ε α) :=
  fun x y =>
  match x, y with
  | .error a, .error b =>
    if h : a = b then .isTrue (by rw [h]) else .isFalse (by simp [h])
  | .ok a, .ok b =>
    if h : a = b then .isTrue (by rw [h]) else .isFalse (by simp [h])
  | .error _, .ok _ => .isFalse (by simp)
  | .ok _, .error _ => .isFalse (by simp)

/-- Embeds `GDBController._send_command`, seen from one caller: it raises
(`Except.error`, the Python `raise RuntimeError("GDB not started")`) when no
process handle exists; otherwise it writes the command text to the
subprocess input stream and drains the queue until a terminal record or the
timeout.  The drained lines are the environment parameter `resp` (whatever
gdb produced within the timeout); the second component logs the commands
written to stdin. -/
def sendCommand (st : GDBState) (cmd : Str) (resp : List Str) :
    Except Str (List Str × List Str) :=
  if st.process = none then Except.error (strL "GDB not started")
  else Except.ok (resp, [cmd])

/-- Embeds `GDBController.start`; `newPid` is the pid the spawn produced. -/
def start (st : GDBState) (newPid : Nat) : GDBState × Resp :=
  if st.process.isSome then (st, .errorR (strL "GDB already running"))
  else ({ st with process := some newPid, running := true }, .startedR newPid)

/-- Which way the `try` block of `stop` went: `graceful` when `-gdb-exit`
was delivered and the wait finished in time; `failed` when any of the write,
flush or bounded wait raised, in which case the process is killed. -/
inductive ExitPath where
  | graceful
  | failed
deriving Repr, DecidableEq

/-- Embeds `GDBController.stop`.  On both exit paths the handler falls through to
the same epilogue, which clears the process handle, attachment target,
breakpoint table and hit log and reports success; killing the process has no
further effect on session state, so both branches of the `match` coincide. -/
def stop (st : GDBState) (path : ExitPath) : GDBState × Resp :=
  if st.process = none then (st, .errorR (strL "GDB not running"))
  else
    let st1 : GDBState := { st with running := false }
    let st2 : GDBState :=
      match path with
      | .graceful => st1
      | .failed => st1
    ({ st2 with process := none, attachedPid := none, breakpoints := [], bpHits := [] },
     .stoppedR)

/-- Embeds `GDBController.attach`. -/
def attach (st : GDBState) (pid : Nat) (resp : List Str) :
    Except Str (GDBState × Resp × List Str) :=
  if st.process = none then .ok (st, .errorR (strL "GDB not started"), [])
  else
    match sendCommand st (strL "-target-attach " ++ natToStr pid) resp with
    | .error e => .error e
    | .ok (lines, ws) =>
      let r := parseResult lines
      if r.success then .ok ({ st with attachedPid := some pid }, .attachedR pid, ws)
      else .ok (st, .errorR r.message, ws)

/-- Embeds `GDBController.detach`. -/
def detach (st : GDBState) (resp : List Str) :
    Except Str (GDBState × Resp × List Str) :=
  if st.process = none then .ok (st, .errorR (strL "GDB not started"), [])
  else if st.attachedPid = none then
    .ok (st, .errorR (strL "Not attached to any process"), [])
  else
    match sendCommand st (strL "-target-detach") resp with
    | .error e => .error e
    | .ok (lines, ws) =>
      let r := parseResult lines
      if r.success then .ok ({ st with attachedPid := none }, .detachedR, ws)
      else .ok (st, .errorR r.message, ws)

/-- The command text `set_breakpoint` sends: `-break-insert `, the optional
`-h ` hardware flag, and the address prefixed with `*` unless it already
starts with `*`. -/
def bpInsertCmd (address : Str) (hardware : Bool) : Str :=
  strL "-break-insert " ++ (if hardware then strL "-h " else []) ++
    (if startsWith (strL "*") address then address else '*' :: address)

/-- The scan in `set_breakpoint`: first `number="(\d+)"` match over the
response lines, converted with `int(...)`. -/
def firstNumber (lines : List Str) : Option Nat :=
  (lines.findSome?
    (fun l => reSearch (matchAt (strL "number=\"") Char.isDigit true '"') l)).map
    natOfDigits

/-- Embeds `GDBController.set_breakpoint`.  The Python guard `if bp_num:` is falsy
both for `None` and for `0`, so only an extracted number `n + 1` leads to a
table entry. -/
def set_breakpoint (st : GDBState) (address : Str) (hardware : Bool)
    (resp : List Str) : Except Str (GDBState × Resp × List Str) :=
  if st.process = none then .ok (st, .errorR (strL "GDB not started"), [])
  else
    match sendCommand st (bpInsertCmd address hardware) resp with
    | .error e => .error e
    | .ok (lines, ws) =>
      let r := parseResult lines
      if r.success then
        match firstNumber lines with
        | some (n + 1) =>
          .ok ({ st with
                 breakpoints := insertBp st.breakpoints (n + 1) ⟨address, hardware, n + 1⟩ },
               .bpSetR (some (n + 1)) address, ws)
        | _ => .ok (st, .bpSetR none address, ws)
      else .ok (st, .errorR r.message, ws)

/-- Embeds `GDBController.delete_breakpoint`. -/
def delete_breakpoint (st : GDBState) (number : Nat) (resp : List Str) :
    Except Str (GDBState × Resp × List Str) :=
  if st.process = none then .ok (st, .errorR (strL "GDB not started"), [])
  else
    match sendCommand st (strL "-break-delete " ++ natToStr number) resp with
    | .error e => .error e
    | .ok (lines, ws) =>
      let r := parseResult lines
      if r.success then
        .ok ({ st with breakpoints := removeBp st.breakpoints number },
             .bpDeletedR number, ws)
      else .ok (st, .errorR r.message, ws)

/-- Embeds `GDBController.continue_exec`. -/
def continue_exec (st : GDBState) (resp : List Str) :
    Except Str (GDBState × Resp × List Str) :=
  if st.process = none then .ok (st, .errorR (strL "GDB not started"), [])
  else
    match sendCommand st (strL "-exec-continue") resp with
    | .error e => .error e
    | .ok (lines, ws) =>
      let r := parseResult lines
      if r.success then .ok (st, .runningR, ws)
      else .ok (st, .errorR r.message, ws)

/-- Embeds `GDBController.interrupt`. -/
def interrupt (st : GDBState) (resp : List Str) :
    Except Str (GDBState × Resp × List Str) :=
  if st.process = none then .ok (st, .errorR (strL "GDB not started"), [])
  else
    match sendCommand st (strL "-exec-interrupt") resp with
    | .error e => .error e
    | .ok (lines, ws) =>
      let r := parseResult lines
      if r.success then .ok (st, .interruptedR, ws)
      else .ok (st, .errorR r.message, ws)

/-- Models `re.search(r'value="([^"]*)"', line)`. -/
def extractValue (line : Str) : Option Str :=
  reSearch (matchAt (strL "value=\"") (fun c => !(c == '"')) false '"') line

/-- Embeds `GDBController.read_register`: the structured `value` field, falling
back to a raw scan of the lines, falling back to the empty string. -/
def read_register (st : GDBState) (register : Str) (resp : List Str) :
    Except Str (GDBState × Resp × List Str) :=
  if st.process = none then .ok (st, .errorR (strL "GDB not started"), [])
  else
    match sendCommand st (strL "-data-evaluate-expression $" ++ register) resp with
    | .error e => .error e
    | .ok (lines, ws) =>
      let r := parseResult lines
      if r.success then
        let v0 := (lookupD r.data (strL "value")).getD []
        let v := if v0 = [] then (lines.findSome? extractValue).getD [] else v0
        .ok (st, .registerR register v, ws)
      else .ok (st, .errorR r.message, ws)

/-- Models `re.search(r'contents="([0-9a-fA-F]*)"', line)`. -/
def extractContents (line : Str) : Option Str :=
  reSearch (matchAt (strL "contents=\"") isHexDigit false '"') line

/-- Embeds `GDBController.read_memory`: the size cap is checked after the liveness
guard and before any subprocess interaction. -/
def read_memory (st : GDBState) (address : Str) (size : Int) (resp : List Str) :
    Except Str (GDBState × Resp × List Str) :=
  if st.process = none then .ok (st, .errorR (strL "GDB not started"), [])
  else if size > 4096 then
    .ok (st, .errorR (strL "Size exceeds maximum (4096 bytes)"), [])
  else
    match sendCommand st
        (strL "-data-read-memory-bytes " ++ address ++ strL " " ++ intToStr size) resp with
    | .error e => .error e
    | .ok (lines, ws) =>
      let r := parseResult lines
      if r.success then
        .ok (st, .memoryR address size ((lines.findSome? extractContents).getD []), ws)
      else .ok (st, .errorR r.message, ws)

/-- Embeds `GDBController.get_hits`: copy the pending hits, reset the log, return
the copy and its count.  There is no liveness guard. -/
def get_hits (st : GDBState) : GDBState × Resp :=
  ({ st with bpHits := [] }, .hitsR st.bpHits st.bpHits.length)

/-- Embeds `GDBController.get_status`: a snapshot without any liveness guard. -/
def get_status (st : GDBState) : GDBState × Resp :=
  (st, .statusR st.process.isSome st.attachedPid (st.breakpoints.map Prod.snd)
    st.bpHits.length)

/-- Embeds `GDBController.raw_command`. -/
def raw_command (st : GDBState) (command : Str) (resp : List Str) :
    Except Str (GDBState × Resp × List Str) :=
  if st.process = none then .ok (st, .errorR (strL "GDB not started"), [])
  else
    match sendCommand st command resp with
    | .error e => .error e
    | .ok (lines, ws) => .ok (st, .rawR lines, ws)

example :
    set_breakpoint ⟨some 7, true, [], [], none⟩ (strL "0x401000") false
      [strL "^done,bkpt=\x7bnumber=\"1\",type=\"breakpoint\",addr=\"0x401000\"\x7d"] =
    .ok (⟨some 7, true, [(1, ⟨strL "0x401000", false, 1⟩)], [], none⟩,
         .bpSetR (some 1) (strL "0x401000"),
         [strL "-break-insert *0x401000"]) := by decide

example :
    read_memory ⟨some 7, true, [], [], none⟩ (strL "0x1000") 5000 [] =
    .ok (⟨some 7, true, [], [], none⟩,
         .errorR (strL "Size exceeds maximum (4096 bytes)"), []) := by decide

/-! Concurrency model of the Command Correlator: `_send_command` runs its
queue-clear, stdin write and drain loop entirely inside `with self.lock`.
Callers are modelled as two threads (`Bool`); each thread repeatedly enters
`_send_command`.  The shared-event log records stdin writes, queue pops by
the in-flight command, and completion (terminal record observed, or the
timeout elapsing) which releases the lock. -/

/-- Where a caller thread is inside `_send_command`. -/
inductive Phase where
  | idle
  | acquired
  | inFlight
deriving Repr, DecidableEq

inductive Event where
  | write (t : Bool) (cmd : Str)
  | collect (t : Bool) (line : Str)
  | finish (t : Bool)
deriving Repr, DecidableEq

structure CSys where
  lockHolder : Option Bool
  thr : Bool → Phase
  log : List Event

def CInit : CSys := ⟨none, fun _ => .idle, []⟩

/-- Interleaving semantics of `_send_command` under `self.lock`: a thread
acquires the free lock (and clears the queue), then writes its command, then
pops response lines, and finishes (terminal record or timeout) releasing the
lock; every action after `acquire` requires still holding the lock. -/
inductive CStep : CSys → CSys → Prop
  | acquire (s : CSys) (t : Bool) :
      s.lockHolder = none → s.thr t = .idle →
      CStep s ⟨some t, Function.update s.thr t .acquired, s.log⟩
  | write (s : CSys) (t : Bool) (cmd : Str) :
      s.lockHolder = some t → s.thr t = .acquired →
      CStep s ⟨some t, Function.update s.thr t .inFlight, s.log ++ [.write t cmd]⟩
  | collect (s : CSys) (t : Bool) (line : Str) :
      s.lockHolder = some t → s.thr t = .inFlight →
      CStep s ⟨s.lockHolder, s.thr, s.log ++ [.collect t line]⟩
  | finish (s : CSys) (t : Bool) :
      s.lockHolder = some t → s.thr t = .inFlight →
      CStep s ⟨none, Function.update s.thr t .idle, s.log ++ [.finish t]⟩

inductive CReach : CSys → Prop
  | init : CReach CInit
  | step {s s' : CSys} : CReach s → CStep s s' → CReach s'

/-- A log is serialized: scanning left to right with the currently open
command (`none` = no command in flight), a write is admissible only with no
command open, and every pop and every completion belongs to the open
command.  This is exactly "the second caller's command is not written until
the first caller's terminal record is observed or its wait times out, and no
caller receives lines belonging to the other". -/
def serialFrom : Option Bool → List Event → Bool
  | _, [] => true
  | none, .write t _ :: es => serialFrom (some t) es
  | none, .collect _ _ :: es => false
  | none, .finish _ :: es => false
  | some _, .write _ _ :: es => false
  | some u, .collect t _ :: es => t == u && serialFrom (some u) es
  | some u, .finish t :: es => t == u && serialFrom none es

/-- The open command after replaying a log. -/
def runFrom : Option Bool → List Event → Option Bool
  | o, [] => o
  | _, .write t _ :: es => runFrom (some t) es
  | o, .collect _ _ :: es => runFrom o es
  | _, .finish _ :: es => runFrom none es

/-- Admissibility of one more event given the open command. -/
def eventOk : Option Bool → Event → Bool
  | none, .write _ _ => true
  | none, .collect _ _ => false
  | none, .finish _ => false
  | some _, .write _ _ => false
  | some u, .collect t _ => t == u
  | some u, .finish t => t == u

/-- Effect of one more event on the open command. -/
def stepRun : Option Bool → Event → Option Bool
  | _, .write t _ => some t
  | o, .collect _ _ => o
  | _, .finish _ => none

theorem serialFrom_append (es : List Event) (e : Event) (o : Option Bool) :
    serialFrom o (es ++ [e]) = (serialFrom o es && eventOk (runFrom o es) e) := by
  induction es generalizing o with
  | nil => cases o <;> cases e <;> simp [serialFrom, runFrom, eventOk]
  | cons e0 rest ih =>
    cases o <;> cases e0 <;>
      simp [serialFrom, runFrom, ih, Bool.and_assoc]

theorem runFrom_append (es : List Event) (e : Event) (o : Option Bool) :
    runFrom o (es ++ [e]) = stepRun (runFrom o es) e := by
  induction es generalizing o with
  | nil => cases o <;> cases e <;> simp [runFrom, stepRun]
  | cons e0 rest ih => cases e0 <;> simp [runFrom, ih]

/-- The thread whose command is in flight, read off the phases. -/
def flightOf (s : CSys) : Option Bool :=
  if s.thr true = .inFlight then some true
  else if s.thr false = .inFlight then some false
  else none

/-- Inductive invariant: any thread past `acquire` holds the lock, the log
is serialized, and replaying the log yields the in-flight thread. -/
def CInv (s : CSys) : Prop :=
  (∀ t, s.thr t = .acquired ∨ s.thr t = .inFlight → s.lockHolder = some t) ∧
  serialFrom none s.log = true ∧
  runFrom none s.log = flightOf s

theorem flightOf_eq_none_of_acquired {s : CSys} {t : Bool}
    (hlock : ∀ u, s.thr u = .acquired ∨ s.thr u = .inFlight → s.lockHolder = some u)
    (hacq : s.thr t = .acquired) : flightOf s = none := by
  have hl := hlock t (Or.inl hacq)
  have key : ∀ u, s.thr u ≠ .inFlight := by
    intro u hu
    have h2 := hlock u (Or.inr hu)
    rw [hl] at h2
    obtain rfl : t = u := Option.some.inj h2
    rw [hacq] at hu
    exact Phase.noConfusion hu
  unfold flightOf
  rw [if_neg (key true), if_neg (key false)]

theorem flightOf_eq_some_of_inFlight {s : CSys} {t : Bool}
    (hlock : ∀ u, s.thr u = .acquired ∨ s.thr u = .inFlight → s.lockHolder = some u)
    (hinf : s.thr t = .inFlight) : flightOf s = some t := by
  have hl := hlock t (Or.inr hinf)
  have key : ∀ u, s.thr u = .inFlight → u = t := by
    intro u hu
    have h2 := hlock u (Or.inr hu)
    rw [hl] at h2
    exact (Option.some.inj h2).symm
  unfold flightOf
  cases t with
  | true => rw [if_pos hinf]
  | false =>
    have h1 : s.thr true ≠ .inFlight := fun h => Bool.noConfusion (key true h)
    rw [if_neg h1, if_pos hinf]

theorem CInv_init : CInv CInit := by
  refine ⟨?_, rfl, rfl⟩
  intro t ht
  rcases ht with h | h <;> exact absurd h (by simp [CInit])

theorem CInv_step {s s' : CSys} (hinv : CInv s) (hs : CStep s s') : CInv s' := by
  obtain ⟨hlock, hser, hrun⟩ := hinv
  cases hs with
  | acquire t hfree hidle =>
    refine ⟨?_, hser, ?_⟩
    · intro u hu
      by_cases htu : u = t
      · subst htu; rfl
      · exfalso
        have hu' : s.thr u = .acquired ∨ s.thr u = .inFlight := by
          simpa [Function.update, htu] using hu
        have h2 := hlock u hu'
        rw [hfree] at h2
        exact Option.noConfusion h2
    · show runFrom none s.log = _
      rw [hrun]
      simp [flightOf, Function.update]
      cases t <;> simp [hidle]
  | write t cmd hold hacq =>
    have hnone : flightOf s = none := flightOf_eq_none_of_acquired hlock hacq
    have hlock' : ∀ u,
        Function.update s.thr t Phase.inFlight u = .acquired ∨
          Function.update s.thr t Phase.inFlight u = .inFlight →
        (some t : Option Bool) = some u := by
      intro u hu
      by_cases htu : u = t
      · subst htu; rfl
      · exfalso
        have hu' : s.thr u = .acquired ∨ s.thr u = .inFlight := by
          simpa [Function.update, htu] using hu
        have h2 := hlock u hu'
        rw [hold] at h2
        exact htu (Option.some.inj h2).symm
    refine ⟨hlock', ?_, ?_⟩
    · show serialFrom none (s.log ++ [Event.write t cmd]) = true
      rw [serialFrom_append, hser, hrun, hnone]
      rfl
    · show runFrom none (s.log ++ [Event.write t cmd]) = _
      rw [runFrom_append, hrun, hnone]
      exact (flightOf_eq_some_of_inFlight hlock'
        (by simp [Function.update])).symm
  | collect t line hold hinf =>
    have hsome : flightOf s = some t := flightOf_eq_some_of_inFlight hlock hinf
    refine ⟨hlock, ?_, ?_⟩
    · show serialFrom none (s.log ++ [Event.collect t line]) = true
      rw [serialFrom_append, hser, hrun, hsome]
      simp [eventOk]
    · show runFrom none (s.log ++ [Event.collect t line]) = _
      rw [runFrom_append, hrun, hsome]
      exact hsome.symm
  | finish t hold hinf =>
    have hsome : flightOf s = some t := flightOf_eq_some_of_inFlight hlock hinf
    refine ⟨?_, ?_, ?_⟩
    · intro u hu
      exfalso
      by_cases htu : u = t
      · subst htu
        rcases hu with h | h <;> simp [Function.update] at h
      · have hu' : s.thr u = .acquired ∨ s.thr u = .inFlight := by
          simpa [Function.update, htu] using hu
        have h2 := hlock u hu'
        rw [hold] at h2
        exact htu (Option.some.inj h2).symm
    · show serialFrom none (s.log ++ [Event.finish t]) = true
      rw [serialFrom_append, hser, hrun, hsome]
      simp [eventOk]
    · show runFrom none (s.log ++ [Event.finish t]) = _
      rw [runFrom_append, hrun, hsome]
      have key : ∀ u, Function.update s.thr t Phase.idle u ≠ .inFlight := by
        intro u hu
        by_cases htu : u = t
        · subst htu; simp [Function.update] at hu
        · rw [Function.update_noteq htu] at hu
          have h2 := hlock u (Or.inr hu)
          rw [hold] at h2
          exact htu (Option.some.inj h2).symm
      show (none : Option Bool) = flightOf _
      unfold flightOf
      rw [if_neg (key true), if_neg (key false)]

theorem CInv_reach {s : CSys} (h : CReach s) : CInv s := by
  induction h with
  | init => exact CInv_init
  | step _ hstep ih => exact CInv_step ih hstep

/-! Claim theorems. -/

theorem readerStep_queue (st : RState) (line : Str) :
    (readerStep st line).queue = st.queue ++ [line] := by
  unfold readerStep
  split <;> rfl

theorem readerStep_hits (st : RState) (line : Str) :
    (readerStep st line).hits =
      if startsWith (strL "*stopped") line then parseStopped st.hits line
      else st.hits := by
  unfold readerStep
  split <;> simp_all

theorem readerRun_queue (st : RState) (lines : List Str) :
    (readerRun st lines).queue = st.queue ++ lines := by
  induction lines generalizing st with
  | nil => simp [readerRun]
  | cons l rest ih =>
    show (readerRun (readerStep st l) rest).queue = _
    rw [ih, readerStep_queue]
    simp

/-- C1 counterexample: the claim says a line beginning with `*stopped` is
NOT placed on the Response Channel; on the concrete stop notification below
the reader loop does enqueue the line (the queue gains it). -/
theorem C1_counterexample :
    startsWith (strL "*stopped")
      (strL "*stopped,reason=\"breakpoint-hit\",bkptno=\"1\"") = true ∧
    (readerStep ⟨[], []⟩
        (strL "*stopped,reason=\"breakpoint-hit\",bkptno=\"1\"")).queue =
      [strL "*stopped,reason=\"breakpoint-hit\",bkptno=\"1\""] := by
  constructor <;> decide

/-- C1 (amended): every line read by the reader loop — `*stopped` lines
included — is placed on the Response Channel in arrival order; a line
beginning with `*stopped` is additionally handed to the stop parser (which
appends to the Hit Log only for breakpoint-hit reasons), and every other
line leaves the Hit Log unchanged. -/
theorem C1_reader_loop (st : RState) (lines : List Str) (line : Str) :
    (readerRun st lines).queue = st.queue ++ lines ∧
    (readerStep st line).queue = st.queue ++ [line] ∧
    (readerStep st line).hits =
      (if startsWith (strL "*stopped") line then parseStopped st.hits line
       else st.hits) :=
  ⟨readerRun_queue st lines, readerStep_queue st line, readerStep_hits st line⟩

/-- C2 counterexample: the claim says every `*stopped` line is appended to
the Hit Log regardless of the stop reason; on the concrete non-breakpoint
stop notification below `_parse_stopped` appends nothing. -/
theorem C2_counterexample :
    startsWith (strL "*stopped") (strL "*stopped,reason=\"exited-normally\"") = true ∧
    parseStopped [] (strL "*stopped,reason=\"exited-normally\"") = [] := by
  constructor <;> decide

/-- C2 (amended): a `*stopped` line is parsed into a hit record and appended
to the Hit Log only when the stop reason is breakpoint-hit; within such a
record the number, address and frame fields are the tolerant extractions,
and a field that cannot be extracted is simply omitted (`none`) rather than
causing an error — illustrated on a record with no extractable fields and on
one with all three. -/
theorem C2_parse_stopped :
    (∀ hits line, containsSub (strL "reason=\"breakpoint-hit\"") line = true →
      parseStopped hits line =
        hits ++ [⟨line, extractBkptno line, extractAddr line, extractFrame line⟩]) ∧
    (∀ hits line, containsSub (strL "reason=\"breakpoint-hit\"") line = false →
      parseStopped hits line = hits) ∧
    parseStopped [] (strL "*stopped,reason=\"breakpoint-hit\"") =
      [⟨strL "*stopped,reason=\"breakpoint-hit\"", none, none, none⟩] ∧
    parseStopped []
        (strL "*stopped,reason=\"breakpoint-hit\",bkptno=\"2\",addr=\"0x401000\",frame=\x7bfunc=\"main\"\x7d") =
      [⟨strL "*stopped,reason=\"breakpoint-hit\",bkptno=\"2\",addr=\"0x401000\",frame=\x7bfunc=\"main\"\x7d",
        some 2, some (strL "0x401000"), some (strL "func=\"main\"")⟩] := by
  refine ⟨?_, ?_, by decide, by decide⟩
  · intro hits line h
    unfold parseStopped
    rw [if_pos h]
  · intro hits line h
    unfold parseStopped
    rw [if_neg (by simp [h])]

/-- C2 witness: the two general conjuncts applied at concrete lines. -/
theorem C2_witness :
    parseStopped [] (strL "*stopped,reason=\"breakpoint-hit\",bkptno=\"7\"") =
      [⟨strL "*stopped,reason=\"breakpoint-hit\",bkptno=\"7\"", some 7, none, none⟩] ∧
    parseStopped [] (strL "*stopped,reason=\"watchpoint-trigger\"") = [] := by
  have h := C2_parse_stopped
  constructor
  · rw [h.1 [] _ (by decide)]
    decide
  · exact h.2.1 [] _ (by decide)

/-- C3: in every reachable state of the correlator model, the event log is
serialized: once a caller's command has been written to the subprocess
stdin, no other caller's command is written and no other caller pops
response lines until that caller observes its terminal record or its wait
times out (the `finish` event, which releases `self.lock`); hence the line
sequence one call returns contains no response lines drained during another
call's flight. -/
theorem C3_correlator_serialized (s : CSys) (h : CReach s) :
    serialFrom none s.log = true :=
  (CInv_reach h).2.1

/-- C3 witness: a concrete interleaving — caller `true` runs a full
`_send_command`, then caller `false` acquires and writes — is reachable and
its log is serialized. -/
theorem C3_witness :
    serialFrom none
      [Event.write true (strL "-exec-continue"),
       Event.collect true (strL "^running"),
       Event.finish true,
       Event.write false (strL "-break-delete 1")] = true := by
  have h0 : CReach CInit := CReach.init
  have h1 := CReach.step h0 (CStep.acquire CInit true rfl rfl)
  have h2 := CReach.step h1 (CStep.write _ true (strL "-exec-continue") rfl rfl)
  have h3 := CReach.step h2 (CStep.collect _ true (strL "^running") rfl rfl)
  have h4 := CReach.step h3 (CStep.finish _ true rfl rfl)
  have h5 := CReach.step h4 (CStep.acquire _ false rfl rfl)
  have h6 := CReach.step h5 (CStep.write _ false (strL "-break-delete 1") rfl rfl)
  exact C3_correlator_serialized _ h6

/-- C4: whenever a process handle exists, `stop` — on the graceful path and
on the forced path alike (including failure to deliver `-gdb-exit`) —
clears the process handle, attachment target, breakpoint table and hit log
together, and reports success rather than surfacing any termination
failure. -/
theorem C4_stop_clears (st : GDBState) (p : Nat) (path : ExitPath)
    (h : st.process = some p) :
    stop st path = (⟨none, false, [], [], none⟩, Resp.stoppedR) := by
  cases path <;> simp [stop, h]

/-- C4 witness: a fully populated session is cleared on the forced-exit
path. -/
theorem C4_witness :
    stop ⟨some 5, true, [(1, ⟨strL "0x1000", false, 1⟩)],
          [⟨strL "*stopped", none, none, none⟩], some 99⟩ ExitPath.failed =
      (⟨none, false, [], [], none⟩, Resp.stoppedR) :=
  C4_stop_clears _ 5 ExitPath.failed rfl

/-- C5 counterexample: with no process handle, `get_hits` and `get_status`
do not return a NotStarted-style failure — `get_hits` drains normally and
`get_status` reports a snapshot — refuting the claim that every facade
operation other than `start` checks liveness first. -/
theorem C5_counterexample :
    (⟨none, false, [], [], none⟩ : GDBState).process = none ∧
    (get_hits ⟨none, false, [], [], none⟩).2 = Resp.hitsR [] 0 ∧
    Resp.isError (get_hits ⟨none, false, [], [], none⟩).2 = false ∧
    Resp.isError (get_status ⟨none, false, [], [], none⟩).2 = false := by
  refine ⟨rfl, rfl, rfl, rfl⟩

/-- C5 (amended): every facade operation other than `start`, `get_hits` and
`get_status` first checks session liveness and returns the NotStarted-style
failure (`"GDB not started"`) when no process handle exists, before any
other effect; `get_hits` and `get_status` perform no liveness check. -/
theorem C5_liveness_guards (st : GDBState) (h : st.process = none)
    (pid number : Nat) (resp : List Str) (address register command : Str)
    (hardware : Bool) (size : Int) :
    attach st pid resp = .ok (st, .errorR (strL "GDB not started"), []) ∧
    detach st resp = .ok (st, .errorR (strL "GDB not started"), []) ∧
    set_breakpoint st address hardware resp =
      .ok (st, .errorR (strL "GDB not started"), []) ∧
    delete_breakpoint st number resp =
      .ok (st, .errorR (strL "GDB not started"), []) ∧
    continue_exec st resp = .ok (st, .errorR (strL "GDB not started"), []) ∧
    interrupt st resp = .ok (st, .errorR (strL "GDB not started"), []) ∧
    read_register st register resp = .ok (st, .errorR (strL "GDB not started"), []) ∧
    read_memory st address size resp = .ok (st, .errorR (strL "GDB not started"), []) ∧
    raw_command st command resp = .ok (st, .errorR (strL "GDB not started"), []) := by
  refine ⟨?_, ?_, ?_, ?_, ?_, ?_, ?_, ?_, ?_⟩ <;>
    simp [attach, detach, set_breakpoint, delete_breakpoint, continue_exec,
      interrupt, read_register, read_memory, raw_command, h]

/-- C5 witness: the nine guarded operations applied to a dead session. -/
theorem C5_witness :
    attach ⟨none, false, [], [], none⟩ 7 [] =
      .ok (⟨none, false, [], [], none⟩, .errorR (strL "GDB not started"), []) ∧
    detach ⟨none, false, [], [], none⟩ [] =
      .ok (⟨none, false, [], [], none⟩, .errorR (strL "GDB not started"), []) ∧
    set_breakpoint ⟨none, false, [], [], none⟩ (strL "0x1") true [] =
      .ok (⟨none, false, [], [], none⟩, .errorR (strL "GDB not started"), []) ∧
    delete_breakpoint ⟨none, false, [], [], none⟩ 3 [] =
      .ok (⟨none, false, [], [], none⟩, .errorR (strL "GDB not started"), []) ∧
    continue_exec ⟨none, false, [], [], none⟩ [] =
      .ok (⟨none, false, [], [], none⟩, .errorR (strL "GDB not started"), []) ∧
    interrupt ⟨none, false, [], [], none⟩ [] =
      .ok (⟨none, false, [], [], none⟩, .errorR (strL "GDB not started"), []) ∧
    read_register ⟨none, false, [], [], none⟩ (strL "rax") [] =
      .ok (⟨none, false, [], [], none⟩, .errorR (strL "GDB not started"), []) ∧
    read_memory ⟨none, false, [], [], none⟩ (strL "0x1") 4 [] =
      .ok (⟨none, false, [], [], none⟩, .errorR (strL "GDB not started"), []) ∧
    raw_command ⟨none, false, [], [], none⟩ (strL "info") [] =
      .ok (⟨none, false, [], [], none⟩, .errorR (strL "GDB not started"), []) :=
  C5_liveness_guards ⟨none, false, [], [], none⟩ rfl 7 3 [] (strL "0x1")
    (strL "rax") (strL "info") true 4

theorem lookupD_foldl_insertD (kvs : List (Str × Str)) (d : Dict) (k : Str) :
    lookupD (kvs.foldl (fun d kv => insertD d kv.1 kv.2) d) k =
      (match List.find? (fun kv => decide (kv.1 = k)) kvs.reverse with
       | some kv => some kv.2
       | none => lookupD d k) := by
  induction kvs generalizing d with
  | nil => simp
  | cons kv rest ih =>
    simp only [List.foldl_cons, List.reverse_cons, List.find?_append]
    rw [ih]
    cases hf : List.find? (fun kv => decide (kv.1 = k)) rest.reverse with
    | some x => simp [Option.or]
    | none =>
      by_cases hk : kv.1 = k
      · simp [Option.or, List.find?, hk, lookupD_insertD_same]
      · simp [Option.or, List.find?, hk, lookupD_insertD_ne _ _ _ _ hk]

theorem startsWith_cons_true {a : Char} {as s : Str}
    (h : startsWith (a :: as) s = true) :
    ∃ b bs, s = b :: bs ∧ a = b ∧ startsWith as bs = true := by
  match s with
  | [] => exact absurd h (by simp [startsWith])
  | b :: bs =>
    simp only [startsWith, Bool.and_eq_true, beq_iff_eq] at h
    exact ⟨b, bs, rfl, h.1, h.2⟩

theorem startsWith_error_elim {rl : Str}
    (h : startsWith (strL "^error") rl = true) :
    startsWith (strL "^done") rl = false ∧
      startsWith (strL "^running") rl = false := by
  obtain ⟨b, bs, rfl, hb, h2⟩ := startsWith_cons_true h
  obtain ⟨b', bs', rfl, hb', h3⟩ := startsWith_cons_true h2
  subst hb
  subst hb'
  exact ⟨rfl, rfl⟩

theorem startsWith_running_elim {rl : Str}
    (h : startsWith (strL "^running") rl = true) :
    startsWith (strL "^done") rl = false ∧
      startsWith (strL "^error") rl = false := by
  obtain ⟨b, bs, rfl, hb, h2⟩ := startsWith_cons_true h
  obtain ⟨b', bs', rfl, hb', h3⟩ := startsWith_cons_true h2
  subst hb
  subst hb'
  exact ⟨rfl, rfl⟩

/-- C6: the Result Interpreter classifies the first line starting with `^`:
no such line yields failure `"No result received"` with empty data; `^done`
yields success with the mapping of all `key="value"` pairs in line-scan
order, a later duplicate key overwriting an earlier one (the final conjunct:
lookup in the built mapping returns the last occurrence); `^running` yields
success with empty data; `^error` yields failure carrying the `msg="..."`
field when present and the placeholder `"Unknown error"` otherwise; any
other `^` shape yields failure tagged with the literal line. -/
theorem C6_result_interpreter (lines : List Str) (rl m : Str)
    (kvs : List (Str × Str)) (k : Str) :
    (List.find? (fun l => startsWith (strL "^") l) lines = none →
      parseResult lines = ⟨false, strL "No result received", []⟩) ∧
    (List.find? (fun l => startsWith (strL "^") l) lines = some rl →
      (startsWith (strL "^done") rl = true →
        parseResult lines = ⟨true, strL "OK", buildDict (findKVs rl)⟩) ∧
      (startsWith (strL "^running") rl = true →
        parseResult lines = ⟨true, strL "Running", []⟩) ∧
      (startsWith (strL "^error") rl = true → extractMsg rl = some m →
        parseResult lines = ⟨false, m, []⟩) ∧
      (startsWith (strL "^error") rl = true → extractMsg rl = none →
        parseResult lines = ⟨false, strL "Unknown error", []⟩) ∧
      (startsWith (strL "^done") rl = false →
        startsWith (strL "^error") rl = false →
        startsWith (strL "^running") rl = false →
        parseResult lines = ⟨false, strL "Unknown result: " ++ rl, []⟩)) ∧
    lookupD (buildDict kvs) k =
      (List.find? (fun kv => decide (kv.1 = k)) kvs.reverse).map Prod.snd := by
  refine ⟨?_, ?_, ?_⟩
  · intro hf
    unfold parseResult
    rw [hf]
  · intro hf
    refine ⟨?_, ?_, ?_, ?_, ?_⟩
    · intro hd
      unfold parseResult
      rw [hf]
      dsimp only
      rw [if_pos hd]
    · intro hr
      obtain ⟨hnd, hne⟩ := startsWith_running_elim hr
      unfold parseResult
      rw [hf]
      dsimp only
      rw [if_neg (by simp [hnd]), if_neg (by simp [hne]), if_pos hr]
    · intro he hm
      obtain ⟨hnd, _⟩ := startsWith_error_elim he
      unfold parseResult
      rw [hf]
      dsimp only
      rw [if_neg (by simp [hnd]), if_pos he, hm]
    · intro he hm
      obtain ⟨hnd, _⟩ := startsWith_error_elim he
      unfold parseResult
      rw [hf]
      dsimp only
      rw [if_neg (by simp [hnd]), if_pos he, hm]
    · intro h1 h2 h3
      unfold parseResult
      rw [hf]
      dsimp only
      rw [if_neg (by simp [h1]), if_neg (by simp [h2]), if_neg (by simp [h3])]
  · have hgo := lookupD_foldl_insertD kvs [] k
    unfold buildDict
    rw [hgo]
    cases List.find? (fun kv => decide (kv.1 = k)) kvs.reverse <;> simp [lookupD]

/-- C6 witness: the interpreter's branches applied to concrete line lists,
and duplicate-key overwriting on a concrete pair list. -/
theorem C6_witness :
    parseResult [strL "~out", strL "^done,a=\"1\",a=\"2\""] =
      ⟨true, strL "OK", buildDict (findKVs (strL "^done,a=\"1\",a=\"2\""))⟩ ∧
    parseResult [] = ⟨false, strL "No result received", []⟩ ∧
    parseResult [strL "^error,msg=\"bad\""] = ⟨false, strL "bad", []⟩ ∧
    lookupD (buildDict [(strL "a", strL "1"), (strL "a", strL "2")]) (strL "a") =
      (List.find? (fun kv => decide (kv.1 = strL "a"))
        [(strL "a", strL "1"), (strL "a", strL "2")].reverse).map Prod.snd := by
  have h1 := C6_result_interpreter [strL "~out", strL "^done,a=\"1\",a=\"2\""]
    (strL "^done,a=\"1\",a=\"2\"") [] [] []
  have h2 := C6_result_interpreter [] [] [] [(strL "a", strL "1"), (strL "a", strL "2")]
    (strL "a")
  have h3 := C6_result_interpreter [strL "^error,msg=\"bad\""]
    (strL "^error,msg=\"bad\"") (strL "bad") [] []
  exact ⟨(h1.2.1 (by decide)).1 (by decide), h2.1 (by decide),
    (h3.2.1 (by decide)).2.2.1 (by decide) (by decide), h2.2.2⟩

/-- C7: with a live session, `read_memory` with `size > 4096` returns the
SizeLimitExceeded failure and writes nothing to the subprocess; with
`size ≤ 4096` the memory-read command is written. -/
theorem C7_read_memory_cap (st : GDBState) (p : Nat) (address : Str)
    (size : Int) (resp : List Str) (h : st.process = some p) :
    (4096 < size →
      read_memory st address size resp =
        .ok (st, .errorR (strL "Size exceeds maximum (4096 bytes)"), [])) ∧
    (size ≤ 4096 →
      ∃ out, read_memory st address size resp = .ok out ∧
        out.2.2 = [strL "-data-read-memory-bytes " ++ address ++ strL " " ++
          intToStr size]) := by
  constructor
  · intro hgt
    unfold read_memory
    rw [if_neg (by simp [h]), if_pos hgt]
  · intro hle
    unfold read_memory
    rw [if_neg (by simp [h]), if_neg (by omega)]
    unfold sendCommand
    rw [if_neg (by simp [h])]
    dsimp only
    split
    · exact ⟨_, rfl, rfl⟩
    · exact ⟨_, rfl, rfl⟩

/-- C7 witness: an oversized read is rejected with no write; a small read
dispatches the memory-read command. -/
theorem C7_witness :
    read_memory ⟨some 3, true, [], [], none⟩ (strL "0x10") 5000 [] =
      .ok (⟨some 3, true, [], [], none⟩,
        .errorR (strL "Size exceeds maximum (4096 bytes)"), []) ∧
    ∃ out, read_memory ⟨some 3, true, [], [], none⟩ (strL "0x10") 16 [] = .ok out ∧
      out.2.2 = [strL "-data-read-memory-bytes " ++ strL "0x10" ++ strL " " ++
        intToStr 16] := by
  have h1 := C7_read_memory_cap ⟨some 3, true, [], [], none⟩ 3 (strL "0x10") 5000 [] rfl
  have h2 := C7_read_memory_cap ⟨some 3, true, [], [], none⟩ 3 (strL "0x10") 16 [] rfl
  exact ⟨h1.1 (by decide), h2.2 (by decide)⟩

/-- C8: draining the Hit Log returns exactly the buffered hits in arrival
order together with their count, clears the log, and an immediate second
drain returns the empty set with count zero. -/
theorem C8_drain_hits (st : GDBState) :
    (get_hits st).2 = .hitsR st.bpHits st.bpHits.length ∧
    (get_hits st).1 = { st with bpHits := [] } ∧
    (get_hits (get_hits st).1).2 = .hitsR [] 0 ∧
    (get_hits (get_hits st).1).1 = { st with bpHits := [] } :=
  ⟨rfl, rfl, rfl, rfl⟩

theorem insertBp_fresh (d : List (Nat × BpInfo)) (n : Nat) (info : BpInfo)
    (h : lookupBp d n = none) : insertBp d n info = d ++ [(n, info)] := by
  induction d with
  | nil => rfl
  | cons kv rest ih =>
    obtain ⟨n', i'⟩ := kv
    by_cases hn : n' = n
    · subst hn
      simp [lookupBp] at h
    · simp only [insertBp, if_neg hn, List.cons_append, List.cons.injEq, true_and]
      exact ih (by simpa [lookupBp, hn] using h)

/-- C9 counterexample: on a successful insert whose response carries the
extractable number 0, the claim requires a table entry keyed 0, but the
falsy guard `if bp_num:` treats 0 as missing: the table stays empty and the
result carries no number. -/
theorem C9_counterexample :
    firstNumber [strL "^done,number=\"0\""] = some 0 ∧
    (parseResult [strL "^done,number=\"0\""]).success = true ∧
    set_breakpoint ⟨some 3, true, [], [], none⟩ (strL "0x401000") false
        [strL "^done,number=\"0\""] =
      .ok (⟨some 3, true, [], [], none⟩, .bpSetR none (strL "0x401000"),
           [strL "-break-insert *0x401000"]) := by
  refine ⟨by decide, by decide, by decide⟩

/-- C9 (amended): `set_breakpoint` on an address not already starting with
`*` issues a breakpoint-insert command referencing the prefixed form (with
the hardware flag when requested); on success with an extractable nonzero
number, the table maps that number to an entry whose stored address equals
the original unprefixed input — gaining exactly one new entry when the
number was not already tracked; if no number can be extracted, or the
extracted number is 0 (which the falsy guard treats as missing), the
operation still returns success but adds no table entry. -/
theorem C9_set_breakpoint (st : GDBState) (p : Nat) (address : Str)
    (hardware : Bool) (resp : List Str) (n : Nat)
    (hp : st.process = some p)
    (hpre : startsWith (strL "*") address = false)
    (hsucc : (parseResult resp).success = true) :
    (firstNumber resp = some (n + 1) →
      set_breakpoint st address hardware resp =
        .ok ({ st with breakpoints :=
                 insertBp st.breakpoints (n + 1) ⟨address, hardware, n + 1⟩ },
             .bpSetR (some (n + 1)) address,
             [strL "-break-insert " ++ (if hardware then strL "-h " else []) ++
               '*' :: address]) ∧
      (lookupBp st.breakpoints (n + 1) = none →
        insertBp st.breakpoints (n + 1) ⟨address, hardware, n + 1⟩ =
          st.breakpoints ++ [(n + 1, ⟨address, hardware, n + 1⟩)])) ∧
    (firstNumber resp = none →
      set_breakpoint st address hardware resp =
        .ok (st, .bpSetR none address,
             [strL "-break-insert " ++ (if hardware then strL "-h " else []) ++
               '*' :: address])) ∧
    (firstNumber resp = some 0 →
      set_breakpoint st address hardware resp =
        .ok (st, .bpSetR none address,
             [strL "-break-insert " ++ (if hardware then strL "-h " else []) ++
               '*' :: address])) := by
  have hcmd : bpInsertCmd address hardware =
      strL "-break-insert " ++ (if hardware then strL "-h " else []) ++
        '*' :: address := by
    unfold bpInsertCmd
    rw [if_neg (show ¬startsWith (strL "*") address = true by simp [hpre])]
  refine ⟨?_, ?_, ?_⟩
  · intro hnum
    constructor
    · unfold set_breakpoint
      rw [if_neg (by simp [hp])]
      unfold sendCommand
      rw [if_neg (by simp [hp])]
      dsimp only
      rw [if_pos hsucc, hnum, hcmd]
    · intro hfresh
      exact insertBp_fresh st.breakpoints (n + 1) _ hfresh
  · intro hnum
    unfold set_breakpoint
    rw [if_neg (by simp [hp])]
    unfold sendCommand
    rw [if_neg (by simp [hp])]
    dsimp only
    rw [if_pos hsucc, hnum, hcmd]
  · intro hnum
    unfold set_breakpoint
    rw [if_neg (by simp [hp])]
    unfold sendCommand
    rw [if_neg (by simp [hp])]
    dsimp only
    rw [if_pos hsucc, hnum, hcmd]

/-- C9 witness: a concrete successful insert with number 1 is tracked with
the unprefixed address as exactly one new entry, and a concrete success
without an extractable number returns success untracked. -/
theorem C9_witness :
    set_breakpoint ⟨some 3, true, [], [], none⟩ (strL "0x401000") false
        [strL "^done,bkpt=\x7bnumber=\"1\",addr=\"0x401000\"\x7d"] =
      .ok (⟨some 3, true, [(1, ⟨strL "0x401000", false, 1⟩)], [], none⟩,
           .bpSetR (some 1) (strL "0x401000"),
           [strL "-break-insert *0x401000"]) ∧
    insertBp [] 1 ⟨strL "0x401000", false, 1⟩ =
      [] ++ [(1, ⟨strL "0x401000", false, 1⟩)] ∧
    set_breakpoint ⟨some 3, true, [], [], none⟩ (strL "0x401000") false
        [strL "^done"] =
      .ok (⟨some 3, true, [], [], none⟩, .bpSetR none (strL "0x401000"),
           [strL "-break-insert *0x401000"]) := by
  have h1 := C9_set_breakpoint ⟨some 3, true, [], [], none⟩ 3 (strL "0x401000")
    false [strL "^done,bkpt=\x7bnumber=\"1\",addr=\"0x401000\"\x7d"] 0 rfl
    (by decide) (by decide)
  have h2 := C9_set_breakpoint ⟨some 3, true, [], [], none⟩ 3 (strL "0x401000")
    false [strL "^done"] 0 rfl (by decide) (by decide)
  exact ⟨(h1.1 (by decide)).1, (h1.1 (by decide)).2 (by decide), h2.2.1 (by decide)⟩

/-- The `Except.isOk` test for the facade results: `false` exactly on an uncaught
Python exception crossing the facade boundary. -/
def isOkE {ε α : Type} : Except ε α → Bool
  | .ok _ => true
  | .error _ => false

theorem sendCommand_ok (st : GDBState) (p : Nat) (cmd : Str) (resp : List Str)
    (h : st.process = some p) : sendCommand st cmd resp = .ok (resp, [cmd]) := by
  unfold sendCommand
  rw [if_neg (by simp [h])]

/-- C10: the raising branch of `_send_command` (no process handle) is
unreachable from every facade operation that calls it: each one guards on
the process handle first, so no facade call ever propagates the
`RuntimeError` — every result is a returned value. -/
theorem C10_no_uncaught_raise (st : GDBState) (pid number : Nat)
    (resp : List Str) (address register command : Str) (hardware : Bool)
    (size : Int) :
    isOkE (attach st pid resp) = true ∧
    isOkE (detach st resp) = true ∧
    isOkE (set_breakpoint st address hardware resp) = true ∧
    isOkE (delete_breakpoint st number resp) = true ∧
    isOkE (continue_exec st resp) = true ∧
    isOkE (interrupt st resp) = true ∧
    isOkE (read_register st register resp) = true ∧
    isOkE (read_memory st address size resp) = true ∧
    isOkE (raw_command st command resp) = true := by
  refine ⟨?_, ?_, ?_, ?_, ?_, ?_, ?_, ?_, ?_⟩
  · rcases hsp : st.process with _ | p
    · simp [attach, hsp, isOkE]
    · unfold attach
      rw [if_neg (by simp [hsp]), sendCommand_ok st p _ resp hsp]
      dsimp only
      (repeat' split) <;> rfl
  · rcases hsp : st.process with _ | p
    · simp [detach, hsp, isOkE]
    · unfold detach
      rw [if_neg (by simp [hsp]), sendCommand_ok st p _ resp hsp]
      dsimp only
      (repeat' split) <;> rfl
  · rcases hsp : st.process with _ | p
    · simp [set_breakpoint, hsp, isOkE]
    · unfold set_breakpoint
      rw [if_neg (by simp [hsp]), sendCommand_ok st p _ resp hsp]
      dsimp only
      (repeat' split) <;> rfl
  · rcases hsp : st.process with _ | p
    · simp [delete_breakpoint, hsp, isOkE]
    · unfold delete_breakpoint
      rw [if_neg (by simp [hsp]), sendCommand_ok st p _ resp hsp]
      dsimp only
      (repeat' split) <;> rfl
  · rcases hsp : st.process with _ | p
    · simp [continue_exec, hsp, isOkE]
    · unfold continue_exec
      rw [if_neg (by simp [hsp]), sendCommand_ok st p _ resp hsp]
      dsimp only
      (repeat' split) <;> rfl
  · rcases hsp : st.process with _ | p
    · simp [interrupt, hsp, isOkE]
    · unfold interrupt
      rw [if_neg (by simp [hsp]), sendCommand_ok st p _ resp hsp]
      dsimp only
      (repeat' split) <;> rfl
  · rcases hsp : st.process with _ | p
    · simp [read_register, hsp, isOkE]
    · unfold read_register
      rw [if_neg (by simp [hsp]), sendCommand_ok st p _ resp hsp]
      dsimp only
      (repeat' split) <;> rfl
  · rcases hsp : st.process with _ | p
    · simp [read_memory, hsp, isOkE]
    · unfold read_memory
      rw [if_neg (by simp [hsp]), sendCommand_ok st p _ resp hsp]
      dsimp only
      (repeat' split) <;> rfl
  · rcases hsp : st.process with _ | p
    · simp [raw_command, hsp, isOkE]
    · unfold raw_command
      rw [if_neg (by simp [hsp]), sendCommand_ok st p _ resp hsp]
      dsimp only
      (repeat' split) <;> rfl
